import Mathlib

/-!
# Verification of the fire-safety station manager's status engine

Shallow embedding of the core logic of `app.js` (class
`FireSafetyStationApp`).  Modelling conventions:

* A JavaScript number that may be `NaN` is an `Option Int` (`none` = `NaN`).
* `new Date(s).getTime()` is an abstract `parse : String → Option Int`
  (`none` = invalid date); `new Date().getTime()` is `now : Int`; both in
  milliseconds.
* JavaScript strings are Lean `String`s; `null`/`undefined` string fields
  are `Option String` with `none` for absence.
* The status labels are kept as the literal strings the source uses.
-/

namespace FireSafety

/-- A JavaScript numeric value that is either an integer or `NaN` (`none`). -/
abbrev JSNum := Option Int

/-- JavaScript `x > y` where `x` may be `NaN`: every comparison with `NaN`
is `false`. -/
def jsGt (x : JSNum) (y : Int) : Bool :=
  match x with
  | none => false
  | some v => v > y

/-- JavaScript `x >= y` where `x` may be `NaN`. -/
def jsGe (x : JSNum) (y : Int) : Bool :=
  match x with
  | none => false
  | some v => v ≥ y

/-- `Math.ceil (t / d)` for an integer `t` and positive integer `d`:
ceiling division, expressed through flooring division `Int.fdiv`. -/
def ceilDivInt (t d : Int) : Int := -((-t).fdiv d)

/-- `Math.ceil (x / d)` on a possibly-`NaN` numerator (`NaN` propagates). -/
def jsCeilDiv (x : JSNum) (d : Int) : JSNum := x.map (fun t => ceilDivInt t d)

/-- `x - y` where `x` may be `NaN` (`NaN` propagates). -/
def jsSub (x : JSNum) (y : Int) : JSNum := x.map (fun t => t - y)

/-- `STATUS_THRESHOLDS.WARNING_PERIOD` (app.js line 18). -/
def WARNING_PERIOD : Int := 15

/-- `STATUS_THRESHOLDS.OVERDUE_THRESHOLD` (app.js line 19). -/
def OVERDUE_THRESHOLD : Int := 30

/-- An asset record, restricted to the fields the status engine reads and
writes.  `nextDue = none` models a `null`/absent due date. -/
structure Asset where
  assetId : String
  nextDue : Option String
  status : String
  originalStatus : Option String := none
  deriving DecidableEq

/-- A station record, restricted to the fields the status engine reads and
writes. -/
structure Station where
  stationId : String
  assets : List Asset
  status : String
  deriving DecidableEq

/-- `calculateRealTimeStatus` (app.js lines 52–71).  The guard
`!asset.nextDue` is true for `null`/`undefined` and for the empty string.
An unparseable `nextDue` makes `dueDate.getTime()` equal to `NaN`; `NaN`
then propagates through the subtraction and `Math.ceil`, every comparison
with it is `false`, and control reaches the final `else`. -/
def calculateRealTimeStatus (parse : String → Option Int) (now : Int)
    (asset : Asset) : String :=
  match asset.nextDue with
  | none => "maintenance_required"
  | some s =>
    if s = "" then "maintenance_required"
    else
      let dueTime : JSNum := parse s
      let timeDiff : JSNum := jsSub dueTime now
      let daysUntilDue : JSNum := jsCeilDiv timeDiff (1000 * 60 * 60 * 24)
      if jsGt daysUntilDue WARNING_PERIOD then "good"
      else if jsGt daysUntilDue 0 then "inspection_due_soon"
      else if jsGe daysUntilDue (-OVERDUE_THRESHOLD) then "overdue"
      else "maintenance_required"

/-- `statusPriority` (app.js line 30): the four status labels, most severe
first.  A smaller index in this list means a more severe status. -/
def statusPriority : List String :=
  ["maintenance_required", "overdue", "inspection_due_soon", "good"]

/-- The severity index of a status label: its position in
`statusPriority`, exactly the `indexOf` calls of the source. -/
def sevIdx (s : String) : Nat := statusPriority.indexOf s

/-- The body of the `reduce` in `getStationStatus` (app.js lines 79–84):
keep whichever of the running worst status and the asset's freshly
computed status has the smaller index in `statusPriority`. -/
def worstStep (parse : String → Option Int) (now : Int)
    (worstStatus : String) (asset : Asset) : String :=
  if statusPriority.indexOf (calculateRealTimeStatus parse now asset) <
      statusPriority.indexOf worstStatus then
    calculateRealTimeStatus parse now asset
  else worstStatus

/-- `getStationStatus` (app.js lines 74–85).  The `assets` argument is
`none` when `station.assets` is `null`/`undefined`. -/
def getStationStatus (parse : String → Option Int) (now : Int)
    (assets : Option (List Asset)) : String :=
  match assets with
  | none => "maintenance_required"
  | some l =>
    if l.length = 0 then "maintenance_required"
    else l.foldl (worstStep parse now) "good"

/-- On a parseable due date the classifier is the plain four-band
comparison chain on `daysUntilDue`. -/
theorem calculateRealTimeStatus_eq_bands (parse : String → Option Int)
    (now due : Int) (a : Asset) (s : String) (hnd : a.nextDue = some s)
    (hs : s ≠ "") (hp : parse s = some due) :
    calculateRealTimeStatus parse now a =
      (if ceilDivInt (due - now) (1000 * 60 * 60 * 24) > 15 then "good"
       else if ceilDivInt (due - now) (1000 * 60 * 60 * 24) > 0 then
         "inspection_due_soon"
       else if ceilDivInt (due - now) (1000 * 60 * 60 * 24) ≥ -30 then
         "overdue"
       else "maintenance_required") := by
  unfold calculateRealTimeStatus
  rw [hnd]
  simp only [hs, if_false, hp, jsSub, jsCeilDiv, jsGt, jsGe,
    Option.map_some', WARNING_PERIOD, OVERDUE_THRESHOLD, decide_eq_true_eq,
    if_neg hs]

/-- C1: with a parseable due date and
`daysUntilDue = ceil ((due − now) / 1 day)`, the classifier returns
`good` when `daysUntilDue > 15`, `inspection_due_soon` when
`0 < daysUntilDue ≤ 15`, `overdue` when `−30 ≤ daysUntilDue ≤ 0`, and
`maintenance_required` when `daysUntilDue < −30`; in particular the
boundaries 15, 0, −30, −31 resolve to `inspection_due_soon`, `overdue`,
`overdue`, `maintenance_required`. -/
theorem claim_status_bands (parse : String → Option Int) (now due : Int)
    (a : Asset) (s : String) (d : Int) (hnd : a.nextDue = some s)
    (hs : s ≠ "") (hp : parse s = some due)
    (hd : d = ceilDivInt (due - now) (1000 * 60 * 60 * 24)) :
    (d > 15 → calculateRealTimeStatus parse now a = "good") ∧
    (0 < d ∧ d ≤ 15 →
      calculateRealTimeStatus parse now a = "inspection_due_soon") ∧
    (-30 ≤ d ∧ d ≤ 0 → calculateRealTimeStatus parse now a = "overdue") ∧
    (d < -30 →
      calculateRealTimeStatus parse now a = "maintenance_required") := by
  rw [calculateRealTimeStatus_eq_bands parse now due a s hnd hs hp, ← hd]
  refine ⟨fun h => ?_, fun h => ?_, fun h => ?_, fun h => ?_⟩ <;>
    split_ifs <;> first | rfl | omega

/-- Witness for C1: the boundary values 16, 15, 0, −30 and −31 days,
realised with concrete millisecond timestamps. -/
theorem claim_status_bands_witness :
    calculateRealTimeStatus (fun _ => some (16 * 86400000)) 0
      ⟨"FE-1", some "d1", "unknown", none⟩ = "good" ∧
    calculateRealTimeStatus (fun _ => some (15 * 86400000)) 0
      ⟨"FE-1", some "d1", "unknown", none⟩ = "inspection_due_soon" ∧
    calculateRealTimeStatus (fun _ => some 0) 0
      ⟨"FE-1", some "d1", "unknown", none⟩ = "overdue" ∧
    calculateRealTimeStatus (fun _ => some (-(30 * 86400000))) 0
      ⟨"FE-1", some "d1", "unknown", none⟩ = "overdue" ∧
    calculateRealTimeStatus (fun _ => some (-(31 * 86400000))) 0
      ⟨"FE-1", some "d1", "unknown", none⟩ = "maintenance_required" := by
  refine ⟨?_, ?_, ?_, ?_, ?_⟩
  · exact (claim_status_bands _ 0 (16 * 86400000) _ "d1" 16 rfl (by decide)
      rfl (by decide)).1 (by decide)
  · exact (claim_status_bands _ 0 (15 * 86400000) _ "d1" 15 rfl (by decide)
      rfl (by decide)).2.1 (by decide)
  · exact (claim_status_bands _ 0 0 _ "d1" 0 rfl (by decide)
      rfl (by decide)).2.2.1 (by decide)
  · exact (claim_status_bands _ 0 (-(30 * 86400000)) _ "d1" (-30) rfl
      (by decide) rfl (by decide)).2.2.1 (by decide)
  · exact (claim_status_bands _ 0 (-(31 * 86400000)) _ "d1" (-31) rfl
      (by decide) rfl (by decide)).2.2.2 (by decide)

/-- The classifier only ever returns one of the four status labels. -/
theorem calculateRealTimeStatus_mem_statusPriority
    (parse : String → Option Int) (now : Int) (a : Asset) :
    calculateRealTimeStatus parse now a ∈ statusPriority := by
  unfold calculateRealTimeStatus
  rcases a.nextDue with _ | s
  · simp [statusPriority]
  · dsimp only
    split_ifs <;> simp [statusPriority]

/-- C2: a `null`/empty or unparseable `nextDue` always classifies as
`maintenance_required`, and classification is total: it always returns
one of the four status labels, for every asset and every parse
function. -/
theorem claim_missing_or_unparseable_due (parse : String → Option Int)
    (now : Int) (a : Asset) :
    calculateRealTimeStatus parse now a ∈ statusPriority ∧
    (a.nextDue = none →
      calculateRealTimeStatus parse now a = "maintenance_required") ∧
    (∀ s, a.nextDue = some s → s = "" →
      calculateRealTimeStatus parse now a = "maintenance_required") ∧
    (∀ s, a.nextDue = some s → parse s = none →
      calculateRealTimeStatus parse now a = "maintenance_required") := by
  refine ⟨calculateRealTimeStatus_mem_statusPriority parse now a,
    fun h => ?_, fun s h he => ?_, fun s h hu => ?_⟩
  · simp [calculateRealTimeStatus, h]
  · simp [calculateRealTimeStatus, h, he]
  · rcases eq_or_ne s "" with he | he
    · simp [calculateRealTimeStatus, h, he]
    · simp [calculateRealTimeStatus, h, he, hu, jsSub, jsCeilDiv, jsGt, jsGe]

/-- Witness for C2: a `null` due date, an empty due date and an
unparseable due-date string each yield `maintenance_required`. -/
theorem claim_missing_or_unparseable_due_witness :
    calculateRealTimeStatus (fun _ => some 0) 0
      ⟨"FE-1", none, "good", none⟩ = "maintenance_required" ∧
    calculateRealTimeStatus (fun _ => some 0) 0
      ⟨"FE-1", some "", "good", none⟩ = "maintenance_required" ∧
    calculateRealTimeStatus (fun _ => none) 0
      ⟨"FE-1", some "not-a-date", "good", none⟩ = "maintenance_required" := by
  refine ⟨?_, ?_, ?_⟩
  · exact (claim_missing_or_unparseable_due (fun _ => some 0) 0 _).2.1 rfl
  · exact (claim_missing_or_unparseable_due (fun _ => some 0) 0 _).2.2.1
      "" rfl rfl
  · exact (claim_missing_or_unparseable_due (fun _ => none) 0 _).2.2.2
      "not-a-date" rfl rfl

/-- One `reduce` step moves the severity index to the minimum of the two
indices involved. -/
theorem sevIdx_worstStep (parse : String → Option Int) (now : Int)
    (w : String) (a : Asset) :
    sevIdx (worstStep parse now w a) =
      min (sevIdx w) (sevIdx (calculateRealTimeStatus parse now a)) := by
  unfold worstStep sevIdx
  split_ifs <;> omega

/-- The severity index of the whole `reduce` is a fold of `min` over the
assets' severity indices. -/
theorem sevIdx_foldl_worstStep (parse : String → Option Int) (now : Int)
    (l : List Asset) (w : String) :
    sevIdx (l.foldl (worstStep parse now) w) =
      l.foldl
        (fun m a => min m (sevIdx (calculateRealTimeStatus parse now a)))
        (sevIdx w) := by
  induction l generalizing w with
  | nil => rfl
  | cons a l ih => simp only [List.foldl_cons, ih, sevIdx_worstStep]

/-- A fold of `min` never exceeds its starting value. -/
theorem foldl_min_le_init {α : Type} (f : α → Nat) (l : List α) (b : Nat) :
    l.foldl (fun m a => min m (f a)) b ≤ b := by
  induction l generalizing b with
  | nil => exact Nat.le_refl b
  | cons a l ih => exact le_trans (ih (min b (f a))) (by omega)

/-- A fold of `min` is bounded by the value of every list member. -/
theorem foldl_min_le_mem {α : Type} (f : α → Nat) (l : List α) (b : Nat)
    (a : α) (h : a ∈ l) :
    l.foldl (fun m x => min m (f x)) b ≤ f a := by
  induction l generalizing b with
  | nil => cases h
  | cons x l ih =>
    rcases List.mem_cons.mp h with rfl | h
    · exact le_trans (foldl_min_le_init f l (min b (f a))) (by omega)
    · exact ih (min b (f x)) h

/-- `getStationStatus` on a present, non-empty asset list is the
`reduce` with seed `good`. -/
theorem getStationStatus_some (parse : String → Option Int) (now : Int)
    (l : List Asset) (h : ¬l.length = 0) :
    getStationStatus parse now (some l) =
      l.foldl (worstStep parse now) "good" := by
  show (if l.length = 0 then "maintenance_required"
      else l.foldl (worstStep parse now) "good") =
    l.foldl (worstStep parse now) "good"
  exact if_neg h

/-- The `reduce` of `getStationStatus` produces either its seed or one of
the assets' computed statuses. -/
theorem foldl_worstStep_mem (parse : String → Option Int) (now : Int)
    (l : List Asset) (w : String) :
    l.foldl (worstStep parse now) w
      ∈ w :: l.map (calculateRealTimeStatus parse now) := by
  induction l generalizing w with
  | nil => exact List.mem_cons_self w []
  | cons a l ih =>
    rw [List.foldl_cons, List.map_cons]
    have hstep : worstStep parse now w a = w ∨
        worstStep parse now w a = calculateRealTimeStatus parse now a := by
      unfold worstStep
      split_ifs
      · exact Or.inr rfl
      · exact Or.inl rfl
    rcases List.mem_cons.mp (ih (worstStep parse now w a)) with he | he
    · rw [he]
      rcases hstep with hw | hw <;> rw [hw] <;> simp
    · simp [he]

/-- The `reduce` of `getStationStatus` stays inside the four status
labels whenever its seed is one of them. -/
theorem foldl_worstStep_mem_statusPriority (parse : String → Option Int)
    (now : Int) (l : List Asset) (w : String) (hw : w ∈ statusPriority) :
    l.foldl (worstStep parse now) w ∈ statusPriority := by
  rcases List.mem_cons.mp (foldl_worstStep_mem parse now l w) with he | he
  · rw [he]; exact hw
  · rcases List.mem_map.mp he with ⟨a, _, ha⟩
    rw [← ha]
    exact calculateRealTimeStatus_mem_statusPriority parse now a

/-- On the four status labels the severity index is at most 3. -/
theorem sevIdx_le_three (s : String) (h : s ∈ statusPriority) :
    sevIdx s ≤ 3 := by
  fin_cases h <;> decide

/-- On the four status labels the severity index is injective. -/
theorem sevIdx_inj (s t : String) (hs : s ∈ statusPriority)
    (ht : t ∈ statusPriority) (h : sevIdx s = sevIdx t) : s = t := by
  fin_cases hs <;> fin_cases ht <;> first | rfl | exact absurd h (by decide)

/-- C3: for a non-empty asset list `getStationStatus` returns the most
severe status present among the assets' computed statuses — it is one of
those statuses and its index in `statusPriority` (smaller = more severe)
is minimal among them; for a missing or empty asset list it returns
`maintenance_required`. -/
theorem claim_station_worst_of_assets (parse : String → Option Int)
    (now : Int) (assets : Option (List Asset)) :
    ((assets = none ∨ assets = some []) →
      getStationStatus parse now assets = "maintenance_required") ∧
    (∀ l, assets = some l → l ≠ [] →
      getStationStatus parse now assets
          ∈ l.map (calculateRealTimeStatus parse now) ∧
        ∀ t ∈ l.map (calculateRealTimeStatus parse now),
          sevIdx (getStationStatus parse now assets) ≤ sevIdx t) := by
  constructor
  · rintro (rfl | rfl) <;> rfl
  · rintro l rfl hne
    have hlen : ¬l.length = 0 := fun h => hne (List.length_eq_zero.mp h)
    have hgss : getStationStatus parse now (some l) =
        l.foldl (worstStep parse now) "good" :=
      getStationStatus_some parse now l hlen
    have hmin : ∀ t ∈ l.map (calculateRealTimeStatus parse now),
        sevIdx (getStationStatus parse now (some l)) ≤ sevIdx t := by
      intro t ht
      rcases List.mem_map.mp ht with ⟨a, ha, rfl⟩
      rw [hgss, sevIdx_foldl_worstStep]
      exact foldl_min_le_mem _ l (sevIdx "good") a ha
    refine ⟨?_, hmin⟩
    rcases List.mem_cons.mp
        (hgss ▸ foldl_worstStep_mem parse now l "good") with he | he
    · rcases List.exists_mem_of_ne_nil l hne with ⟨a₀, ha₀⟩
      have h1 : sevIdx (getStationStatus parse now (some l)) ≤
          sevIdx (calculateRealTimeStatus parse now a₀) :=
        hmin _ (List.mem_map_of_mem _ ha₀)
      have h2 : sevIdx (calculateRealTimeStatus parse now a₀) ≤ 3 :=
        sevIdx_le_three _
          (calculateRealTimeStatus_mem_statusPriority parse now a₀)
      have h3 : sevIdx (calculateRealTimeStatus parse now a₀) = 3 := by
        have : sevIdx (getStationStatus parse now (some l)) = 3 := by
          rw [he]; rfl
        omega
      have h4 : calculateRealTimeStatus parse now a₀ = "good" :=
        sevIdx_inj _ _
          (calculateRealTimeStatus_mem_statusPriority parse now a₀)
          (by decide) (by rw [h3]; rfl)
      rw [he, ← h4]
      exact List.mem_map_of_mem _ ha₀
    · exact he

/-- Witness for C3: a station with one `good` and one
`maintenance_required` asset aggregates to a member of its statuses of
minimal index, and a missing asset list gives `maintenance_required`. -/
theorem claim_station_worst_of_assets_witness :
    (getStationStatus (fun s => if s = "ok" then some 8640000000 else none)
        0 (some [⟨"A", some "ok", "u", none⟩, ⟨"B", none, "u", none⟩])
      ∈ [⟨"A", some "ok", "u", none⟩,
         (⟨"B", none, "u", none⟩ : Asset)].map
          (calculateRealTimeStatus
            (fun s => if s = "ok" then some 8640000000 else none) 0)) ∧
    getStationStatus (fun s => if s = "ok" then some 8640000000 else none)
        0 none = "maintenance_required" := by
  constructor
  · exact ((claim_station_worst_of_assets
      (fun s => if s = "ok" then some 8640000000 else none) 0
      (some [⟨"A", some "ok", "u", none⟩, ⟨"B", none, "u", none⟩])).2
      _ rfl (by decide)).1
  · exact (claim_station_worst_of_assets
      (fun s => if s = "ok" then some 8640000000 else none) 0 none).1
      (Or.inl rfl)

/-- A fold of `min` over a list is invariant under permutation. -/
theorem foldl_min_perm {α : Type} (f : α → Nat) {l₁ l₂ : List α}
    (h : l₁.Perm l₂) (b : Nat) :
    l₁.foldl (fun m a => min m (f a)) b =
      l₂.foldl (fun m a => min m (f a)) b := by
  induction h generalizing b with
  | nil => rfl
  | cons x _ ih => simp only [List.foldl_cons]; exact ih _
  | swap x y l =>
    simp only [List.foldl_cons]
    congr 1
    omega
  | trans _ _ ih₁ ih₂ => exact (ih₁ b).trans (ih₂ b)

/-- C5: `getStationStatus` depends only on the multiset of assets:
permuting a station's asset list never changes the computed station
status. -/
theorem claim_aggregation_order_independent (parse : String → Option Int)
    (now : Int) (l₁ l₂ : List Asset) (h : l₁.Perm l₂) :
    getStationStatus parse now (some l₁) =
      getStationStatus parse now (some l₂) := by
  rcases eq_or_ne l₁ [] with rfl | hne
  · rw [List.Perm.eq_nil h.symm]
  · have hne₂ : l₂ ≠ [] := by
      intro he
      exact hne (List.Perm.eq_nil (he ▸ h))
    have hlen₁ : ¬l₁.length = 0 := fun he => hne (List.length_eq_zero.mp he)
    have hlen₂ : ¬l₂.length = 0 := fun he => hne₂ (List.length_eq_zero.mp he)
    have hg₁ : getStationStatus parse now (some l₁) =
        l₁.foldl (worstStep parse now) "good" :=
      getStationStatus_some parse now l₁ hlen₁
    have hg₂ : getStationStatus parse now (some l₂) =
        l₂.foldl (worstStep parse now) "good" :=
      getStationStatus_some parse now l₂ hlen₂
    have hidx : sevIdx (getStationStatus parse now (some l₁)) =
        sevIdx (getStationStatus parse now (some l₂)) := by
      rw [hg₁, hg₂, sevIdx_foldl_worstStep, sevIdx_foldl_worstStep]
      exact foldl_min_perm _ h _
    exact sevIdx_inj _ _
      (hg₁ ▸ foldl_worstStep_mem_statusPriority parse now l₁ "good"
        (by decide))
      (hg₂ ▸ foldl_worstStep_mem_statusPriority parse now l₂ "good"
        (by decide))
      hidx

/-- Witness for C5: swapping the two assets of a station leaves the
aggregate unchanged. -/
theorem claim_aggregation_order_independent_witness :
    getStationStatus (fun _ => none) 0
        (some [⟨"A", some "x", "u", none⟩, ⟨"B", none, "u", none⟩]) =
      getStationStatus (fun _ => none) 0
        (some [⟨"B", none, "u", none⟩, ⟨"A", some "x", "u", none⟩]) :=
  claim_aggregation_order_independent (fun _ => none) 0 _ _
    (List.Perm.swap _ _ [])

/-- The classifier reads only `nextDue`: assets with the same due-date
field classify identically. -/
theorem calculateRealTimeStatus_congr (parse : String → Option Int)
    (now : Int) (a b : Asset) (h : a.nextDue = b.nextDue) :
    calculateRealTimeStatus parse now a =
      calculateRealTimeStatus parse now b := by
  unfold calculateRealTimeStatus
  rw [h]

/-- The per-station body of `refreshAllStatuses` (app.js lines 158–176):
recompute every asset's status, then the station's aggregate status, and
count the asset and station status transitions.  The source overwrites a
status only when it changed; overwriting unconditionally with the same
computed value is extensionally identical. -/
def refreshStation (parse : String → Option Int) (now : Int)
    (station : Station) : Station × Nat :=
  let newAssets := station.assets.map (fun asset =>
    { asset with status := calculateRealTimeStatus parse now asset })
  let assetChanges := (station.assets.filter (fun asset =>
    asset.status != calculateRealTimeStatus parse now asset)).length
  let newStationStatus := getStationStatus parse now (some newAssets)
  if station.status ≠ newStationStatus then
    ({ station with assets := newAssets, status := newStationStatus },
      assetChanges + 1)
  else ({ station with assets := newAssets }, assetChanges)

/-- `refreshAllStatuses` (app.js lines 155–184): one refresh pass over
all stations, returning the updated stations and the total
`statusChanges` count of the pass. -/
def refreshAllStatuses (parse : String → Option Int) (now : Int)
    (stations : List Station) : List Station × Nat :=
  ((stations.map (refreshStation parse now)).map Prod.fst,
    ((stations.map (refreshStation parse now)).map Prod.snd).sum)

/-- The guard at app.js lines 179–183: the marker, stats and
building-list updates run only when the pass counted at least one
change. -/
def refreshNotifiesDownstream (parse : String → Option Int) (now : Int)
    (stations : List Station) : Bool :=
  decide (0 < (refreshAllStatuses parse now stations).2)

/-- `processLoadedData` (app.js lines 383–404), restricted to the fields
of this model: every asset's incoming status is kept as
`originalStatus` and replaced by the freshly computed status, then the
station's status is computed over the updated assets. -/
def processLoadedData (parse : String → Option Int) (now : Int)
    (stations : List Station) : List Station :=
  stations.map (fun station =>
    let newAssets := station.assets.map (fun asset =>
      { asset with originalStatus := some asset.status,
                   status := calculateRealTimeStatus parse now asset })
    { station with assets := newAssets,
                   status := getStationStatus parse now (some newAssets) })

/-- The Aggregator over a list of status labels, as the spec's §4.3
states it: `getStationStatus` with the per-asset classification already
performed. -/
def aggregate (statuses : List String) : String :=
  if statuses.length = 0 then "maintenance_required"
  else
    statuses.foldl (fun worstStatus s =>
      if statusPriority.indexOf s < statusPriority.indexOf worstStatus
      then s else worstStatus) "good"

/-- `getStationStatus` is the Aggregator applied to the assets' computed
statuses. -/
theorem getStationStatus_eq_aggregate (parse : String → Option Int)
    (now : Int) (l : List Asset) :
    getStationStatus parse now (some l) =
      aggregate (l.map (calculateRealTimeStatus parse now)) := by
  rcases eq_or_ne l [] with rfl | hne
  · rfl
  · have hlen : ¬l.length = 0 := fun he => hne (List.length_eq_zero.mp he)
    rw [getStationStatus_some parse now l hlen]
    unfold aggregate
    rw [List.length_map, if_neg hlen, List.foldl_map]
    rfl

/-- On a list of assets whose stored statuses are fresh, the Aggregator
over the stored statuses is `getStationStatus`. -/
theorem aggregate_stored_of_fresh (parse : String → Option Int)
    (now : Int) (l : List Asset)
    (h : ∀ a ∈ l, a.status = calculateRealTimeStatus parse now a) :
    aggregate (l.map (fun a => a.status)) =
      getStationStatus parse now (some l) := by
  rw [getStationStatus_eq_aggregate]
  congr 1
  exact List.map_congr_left h

/-- The station produced by `refreshStation`: its assets carry the
freshly computed statuses and its status is the aggregate over those
assets. -/
theorem refreshStation_fst_spec (parse : String → Option Int) (now : Int)
    (s : Station) :
    ((refreshStation parse now s).1).assets =
        s.assets.map (fun a =>
          { a with status := calculateRealTimeStatus parse now a }) ∧
      ((refreshStation parse now s).1).status =
        getStationStatus parse now
          (some (s.assets.map (fun a =>
            { a with status := calculateRealTimeStatus parse now a }))) := by
  unfold refreshStation
  dsimp only
  split_ifs with h
  · exact ⟨rfl, rfl⟩
  · exact ⟨rfl, not_ne_iff.mp h⟩

/-- C4: after `processLoadedData` and after every `refreshAllStatuses`
pass, every station's stored status is the aggregate of its current
assets' stored statuses (which are themselves fresh), so no station
reports a status staler than its worst asset. -/
theorem claim_station_status_invariant (parse : String → Option Int)
    (now : Int) (data : List Station) (st : Station) :
    (st ∈ processLoadedData parse now data →
      (∀ a ∈ st.assets,
        a.status = calculateRealTimeStatus parse now a) ∧
      st.status = getStationStatus parse now (some st.assets) ∧
      st.status = aggregate (st.assets.map (fun a => a.status))) ∧
    (st ∈ (refreshAllStatuses parse now data).1 →
      (∀ a ∈ st.assets,
        a.status = calculateRealTimeStatus parse now a) ∧
      st.status = getStationStatus parse now (some st.assets) ∧
      st.status = aggregate (st.assets.map (fun a => a.status))) := by
  constructor
  · intro hmem
    rcases List.mem_map.mp hmem with ⟨s, _, rfl⟩
    dsimp only
    have hfresh : ∀ a ∈ s.assets.map (fun asset =>
        { asset with originalStatus := some asset.status,
                     status := calculateRealTimeStatus parse now asset }),
        a.status = calculateRealTimeStatus parse now a := by
      intro a ha
      rcases List.mem_map.mp ha with ⟨b, _, rfl⟩
      exact (calculateRealTimeStatus_congr parse now b _ rfl).symm
    exact ⟨hfresh, rfl, by rw [aggregate_stored_of_fresh parse now _ hfresh]⟩
  · intro hmem
    rw [refreshAllStatuses] at hmem
    rcases List.mem_map.mp hmem with ⟨pr, hpr, rfl⟩
    rcases List.mem_map.mp hpr with ⟨s, _, rfl⟩
    obtain ⟨hassets, hstatus⟩ := refreshStation_fst_spec parse now s
    have hfresh : ∀ a ∈ ((refreshStation parse now s).1).assets,
        a.status = calculateRealTimeStatus parse now a := by
      rw [hassets]
      intro a ha
      rcases List.mem_map.mp ha with ⟨b, _, rfl⟩
      exact (calculateRealTimeStatus_congr parse now b _ rfl).symm
    have hstatus' : ((refreshStation parse now s).1).status =
        getStationStatus parse now
          (some ((refreshStation parse now s).1).assets) := by
      rw [hassets, hstatus]
    exact ⟨hfresh, hstatus',
      by rw [aggregate_stored_of_fresh parse now _ hfresh, hstatus']⟩

/-- Witness for C4: a freshly loaded one-station data set satisfies the
invariant. -/
theorem claim_station_status_invariant_witness :
    (processLoadedData (fun _ => none) 0
        [⟨"ST-1", [⟨"FE-1", none, "good", none⟩], "unknown"⟩]).head?.map
        (fun st => st.status) = some "maintenance_required" ∧
    ∀ st ∈ processLoadedData (fun _ => none) 0
        [⟨"ST-1", [⟨"FE-1", none, "good", none⟩], "unknown"⟩],
      st.status = getStationStatus (fun _ => none) 0 (some st.assets) := by
  constructor
  · rfl
  · intro st hst
    exact ((claim_station_status_invariant (fun _ => none) 0
      [⟨"ST-1", [⟨"FE-1", none, "good", none⟩], "unknown"⟩] st).1 hst).2.1

/-- Refreshing a station that has just been refreshed (at the same
`now`) changes nothing and counts zero transitions. -/
theorem refreshStation_idem (parse : String → Option Int) (now : Int)
    (s : Station) :
    refreshStation parse now ((refreshStation parse now s).1) =
      ((refreshStation parse now s).1, 0) := by
  obtain ⟨hassets, hstatus⟩ := refreshStation_fst_spec parse now s
  set s1 := (refreshStation parse now s).1 with hs1
  have hfresh : ∀ a ∈ s1.assets,
      a.status = calculateRealTimeStatus parse now a := by
    rw [hassets]
    intro a ha
    rcases List.mem_map.mp ha with ⟨b, _, rfl⟩
    exact (calculateRealTimeStatus_congr parse now b _ rfl).symm
  have hmap : s1.assets.map (fun a =>
      { a with status := calculateRealTimeStatus parse now a }) =
      s1.assets := by
    rw [hassets, List.map_map]
    apply List.map_congr_left
    intro a _
    show ({ { a with status := calculateRealTimeStatus parse now a } with
        status := calculateRealTimeStatus parse now
          { a with status := calculateRealTimeStatus parse now a } }) =
      { a with status := calculateRealTimeStatus parse now a }
    rw [calculateRealTimeStatus_congr parse now
      { a with status := calculateRealTimeStatus parse now a } a rfl]
  have hfilter : s1.assets.filter (fun a =>
      a.status != calculateRealTimeStatus parse now a) = [] := by
    rw [List.filter_eq_nil_iff]
    intro a ha
    simp [hfresh a ha]
  have hstat1 : s1.status = getStationStatus parse now (some s1.assets) := by
    rw [hstatus, hassets]
  unfold refreshStation
  dsimp only
  rw [hmap, hfilter, if_neg (not_ne_iff.mpr hstat1)]
  rfl

/-- A station list in which every station refreshes to itself with zero
changes refreshes as a whole to itself with zero changes. -/
theorem refreshAllStatuses_of_stable (parse : String → Option Int)
    (now : Int) (L : List Station)
    (h : L.map (refreshStation parse now) = L.map (fun s => (s, 0))) :
    refreshAllStatuses parse now L = (L, 0) := by
  unfold refreshAllStatuses
  rw [h, List.map_map, List.map_map]
  simp [Function.comp_def]

/-- Every station of a refreshed list refreshes to itself with zero
changes. -/
theorem refreshAllStatuses_snd_pass (parse : String → Option Int)
    (now : Int) (stations : List Station) :
    (refreshAllStatuses parse now stations).1.map
        (refreshStation parse now) =
      (refreshAllStatuses parse now stations).1.map (fun s => (s, 0)) := by
  unfold refreshAllStatuses
  dsimp only
  rw [List.map_map, List.map_map, List.map_map, List.map_map]
  apply List.map_congr_left
  intro s _
  exact refreshStation_idem parse now s

/-- C6: a second refresh pass at the same `now` leaves every asset and
station status unchanged, counts zero transitions, and therefore
performs no downstream notification (the marker, stats and
building-list updates are guarded by `statusChanges > 0`). -/
theorem claim_refresh_idempotent (parse : String → Option Int)
    (now : Int) (stations : List Station) :
    refreshAllStatuses parse now
        (refreshAllStatuses parse now stations).1 =
      ((refreshAllStatuses parse now stations).1, 0) ∧
    refreshNotifiesDownstream parse now
        (refreshAllStatuses parse now stations).1 = false := by
  have h1 := refreshAllStatuses_of_stable parse now
    (refreshAllStatuses parse now stations).1
    (refreshAllStatuses_snd_pass parse now stations)
  refine ⟨h1, ?_⟩
  unfold refreshNotifiesDownstream
  rw [h1]
  rfl

/-- `exportData('json')` (app.js lines 1083–1092): the structured JSON
export embeds the live `stations` array as-is, and JSON
serialise-then-parse is the identity on the exported data model. -/
def exportJSONStations (stations : List Station) : List Station := stations

/-- Counterexample to C8: a data set with one asset whose supplied
status is `good` but whose due date is absent.  After the first load its
`originalStatus` is `good`; after exporting as JSON and re-ingesting,
`processLoadedData` overwrites `originalStatus` with the exported live
status `maintenance_required`, so the round trip does not preserve
`originalStatus`. -/
theorem claim_roundtrip_counterexample :
    ((processLoadedData (fun _ => none) 0
        [⟨"ST-1", [⟨"FE-1", none, "good", none⟩], "unknown"⟩]).map
        (fun st => st.assets.map (fun a => a.originalStatus)) =
      [[some "good"]]) ∧
    ((processLoadedData (fun _ => none) 0
        (exportJSONStations (processLoadedData (fun _ => none) 0
          [⟨"ST-1", [⟨"FE-1", none, "good", none⟩], "unknown"⟩]))).map
        (fun st => st.assets.map (fun a => a.originalStatus)) =
      [[some "maintenance_required"]]) :=
  ⟨rfl, rfl⟩

/-- C8 as amended: re-ingesting the structured JSON export preserves
every asset's `assetId` and `nextDue` exactly, while `originalStatus`
is overwritten with the status the asset had at export time. -/
theorem claim_roundtrip_amended (parse : String → Option Int) (now : Int)
    (stations : List Station) :
    (processLoadedData parse now (exportJSONStations stations)).map
        (fun st => st.assets.map (fun a => (a.assetId, a.nextDue))) =
      stations.map
        (fun st => st.assets.map (fun a => (a.assetId, a.nextDue))) ∧
    (processLoadedData parse now (exportJSONStations stations)).map
        (fun st => st.assets.map (fun a => a.originalStatus)) =
      stations.map
        (fun st => st.assets.map (fun a => some a.status)) := by
  unfold processLoadedData exportJSONStations
  constructor <;>
    · rw [List.map_map]
      apply List.map_congr_left
      intro st _
      simp only [Function.comp_def]
      rw [List.map_map]
      apply List.map_congr_left
      intro a _
      rfl

/-- ASCII upper-casing, the behaviour of `toUpperCase()` on the ASCII
type names used by the data model. -/
def toUpperAscii (s : String) : String := String.mk (s.data.map Char.toUpper)

/-- Whether a character list begins with the characters of another:
`startsWith` on the underlying characters. -/
def listBeginsWith : List Char → List Char → Bool
  | _, [] => true
  | [], _ :: _ => false
  | c :: cs, d :: ds => c == d && listBeginsWith cs ds

/-- `determineISOCategory` (app.js lines 365–381).  `none` models a
missing `type`; the empty string is likewise falsy under the source's
`!type` guard. -/
def determineISOCategory (ty : Option String) : Nat :=
  match ty with
  | none => 1
  | some t =>
    if t = "" then 1
    else
      if toUpperAscii t = "CO2" ∨
          listBeginsWith (toUpperAscii t).data "CO".data then 5
      else if toUpperAscii t = "FOAM" then 1
      else if toUpperAscii t = "POWDER" then 2
      else if toUpperAscii t = "WATER" then 1
      else 1

/-- JavaScript `x || y` on an optional number (`0` and absence are
falsy). -/
def jsOrNat (x : Option Nat) (y : Nat) : Nat :=
  match x with
  | none => y
  | some n => if n = 0 then y else n

/-- The isoCategory ingestion of `convertCSVToJSON` (app.js line 301):
`row.isoCategory || row['ISO Category'] || determineISOCategory(row.type)`. -/
def ingestIsoCategory (iso isoAlt : Option Nat) (ty : Option String) : Nat :=
  jsOrNat iso (jsOrNat isoAlt (determineISOCategory ty))

/-- The `type → isoCategory` lookup exactly as the specification words
it: CO2-prefixed types give 5, POWDER gives 2, everything else
(including FOAM, WATER and unknown or missing types) gives 1.  Stated
only for comparison with `determineISOCategory`. -/
def specISOCategory (ty : Option String) : Nat :=
  match ty with
  | none => 1
  | some t =>
    if listBeginsWith (toUpperAscii t).data "CO2".data then 5
    else if toUpperAscii t = "POWDER" then 2
    else 1

/-- Counterexample to C9: the type `Copper` is not CO2-prefixed, so the
claimed lookup sends it to 1, but `determineISOCategory` tests
`startsWith('CO')` and returns 5. -/
theorem claim_iso_lookup_counterexample :
    determineISOCategory (some "Copper") = 5 ∧
    specISOCategory (some "Copper") = 1 ∧
    (determineISOCategory (some "Copper") ==
      specISOCategory (some "Copper")) = false := by
  refine ⟨by decide, by decide, by decide⟩

/-- The amended C9 lookup: any type whose upper-cased form is `CO2` or
starts with `CO` gives 5, `POWDER` gives 2, everything else gives 1. -/
def amendedISOCategory (ty : Option String) : Nat :=
  match ty with
  | none => 1
  | some t =>
    if listBeginsWith (toUpperAscii t).data "CO".data then 5
    else if toUpperAscii t = "POWDER" then 2
    else 1

/-- C9 as amended: with no explicit isoCategory the ingested value is
`determineISOCategory` of the row's type, and that lookup maps
CO-prefixed types (which include all CO2-prefixed ones) to 5, POWDER
to 2, and everything else — including FOAM, WATER, unknown and missing
types — to 1. -/
theorem claim_iso_lookup_amended (ty : Option String) :
    ingestIsoCategory none none ty = determineISOCategory ty ∧
    determineISOCategory ty = amendedISOCategory ty := by
  refine ⟨rfl, ?_⟩
  rcases ty with _ | t
  · rfl
  · unfold determineISOCategory amendedISOCategory
    dsimp only
    rcases eq_or_ne t "" with rfl | ht
    · rfl
    · rw [if_neg ht]
      by_cases hco : listBeginsWith (toUpperAscii t).data "CO".data = true
      · rw [if_pos (Or.inr hco), if_pos hco]
      · have hnot : ¬(toUpperAscii t = "CO2" ∨
            listBeginsWith (toUpperAscii t).data "CO".data = true) := by
          rintro (h | h)
          · apply hco
            rw [h]
            decide
          · exact hco h
        rw [if_neg hnot, if_neg hco]
        split_ifs <;> first | rfl | simp_all

/-- Take exactly `n` leading decimal digits of `cs`: the digit string
and the remainder, or `none` when fewer than `n` digits lead `cs`. -/
def takeDigits (cs : List Char) (n : Nat) : Option (String × List Char) :=
  if (cs.take n).length = n && (cs.take n).all Char.isDigit then
    some (String.mk (cs.take n), cs.drop n)
  else none

/-- One of the three date regexes of `parseDate` (app.js lines
344–348): three digit groups joined by one separator character.  Each
group lists its candidate lengths in the order a greedy backtracking
match tries them (`\d{1,2}` tries 2 then 1; `\d{4}` tries exactly 4). -/
structure DatePattern where
  lens1 : List Nat
  sep : Char
  lens2 : List Nat
  lens3 : List Nat

/-- Match a pattern at the start of `cs`, backtracking over the group
lengths as the regex engine does, returning the three captured
groups. -/
def matchPatternHere (pat : DatePattern) (cs : List Char) :
    Option (String × String × String) :=
  pat.lens1.findSome? fun n1 =>
    (takeDigits cs n1).bind fun g1 =>
      match g1.2 with
      | [] => none
      | c :: r1 =>
        if c == pat.sep then
          pat.lens2.findSome? fun n2 =>
            (takeDigits r1 n2).bind fun g2 =>
              match g2.2 with
              | [] => none
              | c2 :: r2 =>
                if c2 == pat.sep then
                  pat.lens3.findSome? fun n3 =>
                    (takeDigits r2 n3).map fun g3 => (g1.1, g2.1, g3.1)
                else none
        else none

/-- Try a pattern at every start position, left to right: the
unanchored search of `String.prototype.match`. -/
def searchPattern (pat : DatePattern) :
    List Char → Option (String × String × String)
  | [] => none
  | c :: cs =>
    match matchPatternHere pat (c :: cs) with
    | some r => some r
    | none => searchPattern pat cs

/-- The `formats` array of `parseDate` (app.js lines 344–348), in
priority order: `MM/DD/YYYY`, `YYYY-MM-DD`, `DD.MM.YYYY`. -/
def dateFormats : List DatePattern :=
  [⟨[2, 1], '/', [2, 1], [4]⟩,
   ⟨[4], '-', [2, 1], [2, 1]⟩,
   ⟨[2, 1], '.', [2, 1], [4]⟩]

/-- The format loop of `parseDate` (app.js lines 350–359): the first
format that matches anywhere in the string wins and yields its three
captured groups. -/
def findFormatMatch (s : String) : Option (String × String × String) :=
  dateFormats.findSome? fun pat => searchPattern pat s.data

/-- Numeric coercion of a pure digit string (`"03"` to 3). -/
def digitsToNat (s : String) : Nat :=
  s.data.foldl (fun n c => n * 10 + (c.toNat - Char.toNat '0')) 0

/-- Days from 1970-01-01 to the Gregorian date `(y, m, d)` with `m` in
1–12: the civil-calendar day numbering used by ECMAScript `MakeDay`. -/
def daysFromCivil (y m d : Int) : Int :=
  let y2 := if m ≤ 2 then y - 1 else y
  let era := y2.fdiv 400
  let yoe := y2 - era * 400
  let mp := if m > 2 then m - 3 else m + 9
  let doy := (153 * mp + 2).fdiv 5 + d - 1
  let doe := yoe * 365 + yoe.fdiv 4 - yoe.fdiv 100 + doy
  era * 146097 + doe - 719468

/-- The Gregorian date `(y, m, d)` of day number `z`: the inverse of
`daysFromCivil`, used to read a date back for `toISOString`. -/
def civilFromDays (z : Int) : Int × Int × Int :=
  let z2 := z + 719468
  let era := z2.fdiv 146097
  let doe := z2 - era * 146097
  let yoe :=
    (doe - doe.fdiv 1460 + doe.fdiv 36524 - doe.fdiv 146096).fdiv 365
  let y := yoe + era * 400
  let doy := doe - (365 * yoe + yoe.fdiv 4 - yoe.fdiv 100)
  let mp := (5 * doy + 2).fdiv 153
  let d := doy - (153 * mp + 2).fdiv 5 + 1
  let m := if mp < 10 then mp + 3 else mp - 9
  (if m ≤ 2 then y + 1 else y, m, d)

/-- ECMAScript `MakeDay(y, m, d)` with a possibly out-of-range month
index and day: the day number of the normalised date. -/
def jsMakeDay (y m d : Int) : Int :=
  daysFromCivil (y + m.fdiv 12) (m.emod 12 + 1) 1 + (d - 1)

/-- The calendar date constructed by `new Date(y, m, d)` and read back
by `toISOString()`, with the local timezone taken at UTC (offset 0):
integer years 0–99 map to 1900–1999, then month and day overflow is
normalised. -/
def jsDateFields (yArg mArg dArg : Int) : Int × Int × Int :=
  let y := if 0 ≤ yArg ∧ yArg ≤ 99 then 1900 + yArg else yArg
  civilFromDays (jsMakeDay y mArg dArg)

/-- Two-digit zero padding of the month and day fields. -/
def padTwo (n : Int) : String :=
  if n < 10 then "0" ++ toString n else toString n

/-- Four-digit zero padding of the year field. -/
def padFour (n : Int) : String :=
  if n < 10 then "000" ++ toString n
  else if n < 100 then "00" ++ toString n
  else if n < 1000 then "0" ++ toString n
  else toString n

/-- `date.toISOString().split('T')[0]` for the year range used here. -/
def toISODateString (ymd : Int × Int × Int) : String :=
  padFour ymd.1 ++ "-" ++ padTwo ymd.2.1 ++ "-" ++ padTwo ymd.2.2

/-- The reformatting branch of `parseDate` (app.js lines 352–358):
`year = match[3] || match[1]`, the `match[1] === year` selection of
month and day, and `new Date(year, month - 1, day)` rendered as an ISO
calendar date. -/
def renderMatch (m1 m2 m3 : String) : String :=
  let year := if m3 ≠ "" then m3 else m1
  let month := if m1 = year then m2 else m1
  let day := if m1 = year then m3 else m2
  toISODateString (jsDateFields (digitsToNat year)
    ((digitsToNat month : Int) - 1) (digitsToNat day))

/-- `parseDate` (app.js lines 341–363).  The argument is `none` for
`null`/`undefined`, and covered by the same falsy guard as the empty
string; the result is `none` for the `null` return. -/
def parseDate (dateString : Option String) : Option String :=
  match dateString with
  | none => none
  | some s =>
    if s = "" then none
    else
      match findFormatMatch s with
      | some (m1, m2, m3) => some (renderMatch m1 m2 m3)
      | none => some s

/-- C7 fails on the code: the comments at app.js lines 346–347
designate `2024-03-15` as year 2024, month 03, day 15 and `25.12.2024`
as day 25, month 12, year 2024, but `year = match[3] || match[1]`
always picks the third capture group, so `YYYY-MM-DD` gets
`new Date("15", 2024 - 1, "03")`, which normalises to 2083-08-03, and
`DD.MM.YYYY` swaps day and month into `new Date(2024, 25 - 1, "12")`,
which normalises to 2026-01-12.  Only `MM/DD/YYYY` survives with the
designated fields. -/
theorem claim_parsedate_designated_fields :
    parseDate (some "2024-03-15") = some "2083-08-03" ∧
    (parseDate (some "2024-03-15") == some "2024-03-15") = false ∧
    parseDate (some "25.12.2024") = some "2026-01-12" ∧
    parseDate (some "12/25/2024") = some "2024-12-25" := by
  refine ⟨rfl, by decide, rfl, rfl⟩

/-- C10: the three date patterns are matched unanchored.  When any
substring of a non-empty input matches one of them, `parseDate`
returns the reformatting of the first match's captured groups instead
of passing the input through; an input with no matching substring is
returned unchanged.  Surrounding text does not stop the extraction:
`Due: 12/25/2024 (checked)` becomes `2024-12-25`. -/
theorem claim_parsedate_unanchored (s : String) (hs : s ≠ "") :
    (findFormatMatch s = none → parseDate (some s) = some s) ∧
    (∀ m1 m2 m3, findFormatMatch s = some (m1, m2, m3) →
      parseDate (some s) = some (renderMatch m1 m2 m3)) ∧
    parseDate (some "Due: 12/25/2024 (checked)") = some "2024-12-25" := by
  refine ⟨fun h => ?_, fun m1 m2 m3 h => ?_, rfl⟩
  · unfold parseDate
    dsimp only
    rw [if_neg hs, h]
  · unfold parseDate
    dsimp only
    rw [if_neg hs, h]

/-- Witness for C10: a string with no date-like substring passes
through unchanged, and a date embedded in surrounding text is
extracted. -/
theorem claim_parsedate_unanchored_witness :
    parseDate (some "hello") = some "hello" ∧
    parseDate (some "Due: 12/25/2024 (checked)") = some "2024-12-25" := by
  constructor
  · exact (claim_parsedate_unanchored "hello" (by decide)).1 (by decide)
  · exact (claim_parsedate_unanchored "hello" (by decide)).2.2

end FireSafety
